import Mathlib

/-!
Verification development for the qa_test_generator orchestration core.

Shallow embedding of the call-resilience layer (rate limiter, cache,
retry decorator, metrics collector) and of the interactive user-story
phase workflow, translated from the Python sources:
  src/utils/rate_limiter.py, src/utils/cache.py, src/utils/metrics.py,
  src/agents/base_agent.py, src/agents/gemini_agent.py,
  src/agents/generator_agent.py, src/workflows/user_story_workflow.py.

Time is modelled by the rationals; machine floats carry exact values in
the code paths of interest, so no rounding is modelled.
-/

namespace QaGen

/-! ## Rate limiter (src/utils/rate_limiter.py) -/

/-- One call of RateLimiter._memory_is_allowed for a single key: the window
is the per-key list of request timestamps.  The code first rebuilds the
list keeping entries with now - req < 60, then, if its length is below the
per-minute quota, appends now and allows; otherwise it denies. -/
def memStep (quota : ℕ) (w : List ℚ) (now : ℚ) : Bool × List ℚ :=
  let purged := w.filter (fun req => decide (now - req < 60))
  if purged.length < quota then (true, purged ++ [now]) else (false, purged)

/-- Iterated memory-backend calls for one key: the list of returned booleans
together with the final retained window. -/
def memRun (quota : ℕ) (w : List ℚ) : List ℚ → List Bool × List ℚ
  | [] => ([], w)
  | t :: ts =>
    let s := memStep quota w t
    let r := memRun quota s.2 ts
    (s.1 :: r.1, r.2)

/-- One call of RateLimiter._redis_is_allowed for a single key.  The code
first ZADDs the member str(now) (a duplicate timestamp only updates the
existing member), then ZREMRANGEBYSCORE over the score range [0, now-60],
then counts with ZCARD and allows iff count <= quota.  A denied call does
not remove the member it just added. -/
def redisStep (quota : ℕ) (w : List ℚ) (now : ℚ) : Bool × List ℚ :=
  let added := if now ∈ w then w else w ++ [now]
  let trimmed := added.filter (fun req => !(decide (0 ≤ req) && decide (req ≤ now - 60)))
  if trimmed.length ≤ quota then (true, trimmed) else (false, trimmed)

/-- Iterated redis-backend calls for one key. -/
def redisRun (quota : ℕ) (w : List ℚ) : List ℚ → List Bool × List ℚ
  | [] => ([], w)
  | t :: ts =>
    let s := redisStep quota w t
    let r := redisRun quota s.2 ts
    (s.1 :: r.1, r.2)

/-! ## Retry decorator (src/agents/base_agent.py, retry_on_failure) -/

/-- Outcome of a decorated call: the returned or raised value, the number of
invocations of the underlying operation, and the backoff sleeps performed.
The error payload is an Option because with max_retries = 0 the Python code
would raise the initial last_exception = None. -/
structure RetryOutcome (E V : Type) where
  result : Except (Option E) V
  calls : ℕ
  sleeps : List ℚ

/-- Loop body of retry_on_failure: attempts the operation at successive
indices while fuel remains; a failure before the last attempt sleeps
delay * 2 ^ attempt; after the loop the last exception is raised. -/
def retryFrom (op : ℕ → Except E V) (delay : ℚ) : ℕ → ℕ → Option E → RetryOutcome E V
  | _, 0, last => ⟨Except.error last, 0, []⟩
  | i, n + 1, _ =>
    match op i with
    | Except.ok v => ⟨Except.ok v, 1, []⟩
    | Except.error e =>
      let r := retryFrom op delay (i + 1) n (some e)
      ⟨r.result, r.calls + 1, (if 0 < n then [delay * 2 ^ i] else []) ++ r.sleeps⟩

/-- The retry_on_failure decorator applied to an operation whose outcome on
its j-th invocation is op j. -/
def retry_on_failure (maxRetries : ℕ) (delay : ℚ) (op : ℕ → Except E V) :
    RetryOutcome E V :=
  retryFrom op delay 0 maxRetries none

/-! ## In-memory cache backend (src/utils/cache.py, InMemoryCache) -/

/-- InMemoryCache.get with the dict modelled as a map from keys to
(value, expires_at) entries.  A fresh entry is returned; an expired entry
is deleted (lazy eviction) and the read is a miss; an absent key is a
miss.  Returns the read result and the store after the call. -/
def imcGet (store : String → Option (α × ℚ)) (key : String) (now : ℚ) :
    Option α × (String → Option (α × ℚ)) :=
  match store key with
  | none => (none, store)
  | some entry =>
    if now < entry.2 then (some entry.1, store)
    else (none, fun k => if k = key then none else store k)

/-- InMemoryCache.set: stores the value with expires_at = now + ttl. -/
def imcSet (store : String → Option (α × ℚ)) (key : String) (v : α)
    (ttl : ℚ) (now : ℚ) : String → Option (α × ℚ) :=
  fun k => if k = key then some (v, now + ttl) else store k

/-- Python truthiness fallback used by Cache.set: the expression
(ttl or default_ttl) resolves None and 0 to the default TTL. -/
def pyOrTtl (ttl : Option ℚ) (defaultTtl : ℚ) : ℚ :=
  match ttl with
  | none => defaultTtl
  | some t => if t = 0 then defaultTtl else t

/-! ## Cache.cached wrapper (src/utils/cache.py, Cache.cached)

Python values may be None, so the value domain of a wrapped operation is
modelled as Option V with none playing the role of None.  The backend
returns None both on a miss and for a stored None, exactly as
InMemoryCache.get does, and the wrapper re-invokes the operation
whenever that conflated read is None. -/

/-- Result of one invocation of a cached-wrapped operation: the value the
wrapper returns, the backend store afterwards, and how many times the
underlying operation was invoked (0 or 1). -/
structure CachedCallOut (V : Type) where
  result : Option V
  store : String → Option (Option V × ℚ)
  opCalls : ℕ

/-- One invocation of the wrapper produced by Cache.cached(ttl).  The cache
key is a deterministic function of the operation name and its full
argument set in the code (md5 of a canonical JSON rendering); it is
modelled here as an opaque-but-fixed key string, and the operation with
those fixed arguments as a thunk f. -/
def cachedCall (disabled : Bool) (defaultTtl : ℚ) (ttl : Option ℚ)
    (key : String) (f : Unit → Option V)
    (store : String → Option (Option V × ℚ)) (now : ℚ) : CachedCallOut V :=
  if disabled then ⟨f (), store, 1⟩
  else
    let g := imcGet store key now
    match g.1.join with
    | some v => ⟨some v, g.2, 0⟩
    | none =>
      let res := f ()
      ⟨res, imcSet g.2 key res (pyOrTtl ttl defaultTtl) now, 1⟩

/-! ## Metrics (src/utils/metrics.py) -/

/-- A completed APICallMetrics record: complete() has set duration and the
success flag.  Lengths are natural numbers; duration is a rational. -/
structure APICallMetrics where
  provider : String
  operation : String
  duration : ℚ
  success : Bool
  prompt_length : ℕ
  response_length : ℕ
  cached : Bool
  rate_limited : Bool

/-- Running totals of AggregatedMetrics. -/
structure AggregatedMetrics where
  total_calls : ℕ
  successful_calls : ℕ
  failed_calls : ℕ
  total_duration : ℚ
  avg_duration : ℚ
  cache_hits : ℕ
  cache_misses : ℕ
  rate_limit_hits : ℕ
  total_prompt_length : ℕ
  total_response_length : ℕ

/-- Zero-initialized aggregate, as produced by the defaultdict factory. -/
def AggregatedMetrics.init : AggregatedMetrics := ⟨0, 0, 0, 0, 0, 0, 0, 0, 0, 0⟩

/-- AggregatedMetrics.add_call followed by _update_averages.  The Python
guards (if metrics.duration: / if metrics.prompt_length: etc.) are
truthiness tests, so a zero value is skipped; skipping zero leaves the
sums unchanged. -/
def AggregatedMetrics.add_call (agg : AggregatedMetrics) (m : APICallMetrics) :
    AggregatedMetrics :=
  let total := agg.total_calls + 1
  let tdur := if m.duration ≠ 0 then agg.total_duration + m.duration
              else agg.total_duration
  { total_calls := total
    successful_calls := agg.successful_calls + (if m.success then 1 else 0)
    failed_calls := agg.failed_calls + (if m.success then 0 else 1)
    total_duration := tdur
    avg_duration := if 0 < total then tdur / (total : ℚ) else agg.avg_duration
    cache_hits := agg.cache_hits + (if m.cached then 1 else 0)
    cache_misses := agg.cache_misses + (if m.cached then 0 else 1)
    rate_limit_hits := agg.rate_limit_hits + (if m.rate_limited then 1 else 0)
    total_prompt_length :=
      if m.prompt_length ≠ 0 then agg.total_prompt_length + m.prompt_length
      else agg.total_prompt_length
    total_response_length :=
      if m.response_length ≠ 0 then agg.total_response_length + m.response_length
      else agg.total_response_length }

/-- MetricsCollector state: the per-(provider:operation) aggregates
(a defaultdict of zero aggregates) and the bounded recent-call list. -/
structure MetricsCollectorState where
  current : String → AggregatedMetrics
  recent : List APICallMetrics

/-- Fresh collector. -/
def MetricsCollectorState.init : MetricsCollectorState :=
  ⟨fun _ => AggregatedMetrics.init, []⟩

/-- MetricsCollector.record_api_call (memory backend): append to the recent
list dropping the oldest entry beyond 1000, then fold the record into the
aggregate keyed by provider:operation. -/
def record_api_call (s : MetricsCollectorState) (m : APICallMetrics) :
    MetricsCollectorState :=
  let recent1 := s.recent ++ [m]
  let recent2 := if 1000 < recent1.length then recent1.tail else recent1
  let key := m.provider ++ ":" ++ m.operation
  ⟨fun k => if k = key then (s.current k).add_call m else s.current k, recent2⟩

/-! ## Composite generate_response attempt (src/agents/gemini_agent.py)

GeminiAgent.generate_response is decorated, outermost to innermost, by
retry_on_failure(max_retries=3), rate_limited("gemini"), cached(); the
method body enters the record_api_call metrics scope and invokes the
provider.  One attempt (what the retry layer invokes once) therefore runs
the rate-limit check FIRST, then the cache lookup, then on a miss the
metrics scope and the provider call.  The cache key is a deterministic
function of the operation name and arguments, modelled by mkCacheKey. -/

/-- Deterministic cache-key construction (stands for the md5-of-JSON key
over the operation name and argument tuple: equal arguments give the same
key). -/
def mkCacheKey (name : String) (prompt : String) : String :=
  name ++ ":" ++ prompt

/-- Mutable state threaded through one composite attempt: the rate-limit
window for the gemini limiter key, the cache store (string values: the
method returns str), and counters of recorded metric records and of
provider invocations. -/
structure AgentState where
  window : List ℚ
  store : String → Option (String × ℚ)
  metricsRecorded : ℕ
  providerCalls : ℕ

/-- One attempt of the composite generate_response: rate_limited wrapper
(raises on deny after is_allowed already purged the window), then the
cached wrapper (pass-through when disabled), then the method body, which
enters the metrics scope, calls the provider, cleans a non-empty result
and returns it; the cached wrapper stores the body's return value with
the default TTL.  A provider exception is recorded by the metrics scope
and propagates with no cache write. -/
def geminiAttempt (quota : ℕ) (disabled : Bool) (defaultTtl : ℚ)
    (clean : String → String) (provider : String → Except String String)
    (s : AgentState) (prompt : String) (now : ℚ) :
    Except String String × AgentState :=
  let rl := memStep quota s.window now
  if rl.1 = false then
    (Except.error "Rate limit exceeded for gemini", { s with window := rl.2 })
  else
    let s1 : AgentState := { s with window := rl.2 }
    let body := fun (s2 : AgentState) =>
      match provider prompt with
      | Except.ok txt =>
        let res := if txt ≠ "" then clean txt else txt
        (Except.ok res,
         { s2 with metricsRecorded := s2.metricsRecorded + 1,
                   providerCalls := s2.providerCalls + 1 })
      | Except.error e =>
        (Except.error e,
         { s2 with metricsRecorded := s2.metricsRecorded + 1,
                   providerCalls := s2.providerCalls + 1 })
    if disabled then body s1
    else
      let key := mkCacheKey "generate_response" prompt
      let g := imcGet s1.store key now
      match g.1 with
      | some v => (Except.ok v, { s1 with store := g.2 })
      | none =>
        let s2 : AgentState := { s1 with store := g.2 }
        match body s2 with
        | (Except.ok res, s3) =>
          (Except.ok res, { s3 with store := imcSet s3.store key res defaultTtl now })
        | (Except.error e, s3) => (Except.error e, s3)

/-! ## User-story phase workflow (src/workflows/user_story_workflow.py)

The agent layer is abstracted as the sequence of provider outcomes seen
by successive generate_user_story calls; generator_agent.generate_user_story
validates the response and maps any exception or invalid response to
None.  Operator interaction is scripted as a decision list: each
consumed decision answers one review prompt (accept, or reject followed
by the regenerate/edit choice, an edit carrying the content read back
from the modification file).  The result records the final returned
artifact, the number of generate_user_story calls, the number of
answered review prompts, the files persisted via
save_user_story_to_files, and how the run ended. -/

/-- Operator decision at one review prompt. -/
inductive WDecision where
  | accept
  | regenerate
  | edit (content : String)

/-- How a workflow run ended.  outOfScript marks a run whose scripted
decisions were exhausted while the code would still block on input. -/
inductive WEnd where
  | accepted
  | editedAccepted
  | failed
  | outOfScript
deriving DecidableEq

/-- Observable outcome of a user_story_workflow run. -/
structure WFResult where
  final : Option String
  genCalls : ℕ
  reviews : ℕ
  saves : List (String × String)
  ending : WEnd
deriving DecidableEq

/-- Python str.strip() with no arguments: remove whitespace from both
ends of the string, modelled executably over the character list. -/
def pyStrip (s : String) : String :=
  String.mk
    (((s.data.dropWhile Char.isWhitespace).reverse.dropWhile
      Char.isWhitespace).reverse)

/-- AIAgent.validate_response as implemented by the agents:
bool(response and response.strip()). -/
def validate_response (r : String) : Bool :=
  !(r == "") && !(pyStrip r == "")

/-- The generator_agent.generate_user_story outcome given the agent
response: None on an exception or an invalid response. -/
def generate_user_story (resp : Except String String) : Option String :=
  match resp with
  | Except.error _ => none
  | Except.ok r => if validate_response r then some r else none

/-- Filename chosen by the direct-accept branch of the workflow. -/
def acceptFilename (inputFilename : String) : String :=
  if inputFilename ≠ "" then inputFilename ++ "_user_story.txt"
  else "generated_user_story.txt"

/-- The os.path.join call on a directory and a relative filename. -/
def joinPath (dir file : String) : String := dir ++ "/" ++ file

/-- The user_story_workflow loop.  Each iteration generates a story
(returning the failed result when generate_user_story yields None), then
consumes one scripted decision: accept persists under the
input-filename-derived name and returns; regenerate loops; an edit whose
re-read content is whitespace-only loops back to the top of the while
loop (which generates again); a non-empty edit is persisted under
generated_user_story.txt and returned. -/
def user_story_workflow (responses : ℕ → Except String String)
    (outputDir inputFilename : String) : ℕ → List WDecision → WFResult
  | idx, [] =>
    match generate_user_story (responses idx) with
    | none => ⟨none, 1, 0, [], WEnd.failed⟩
    | some _ => ⟨none, 1, 0, [], WEnd.outOfScript⟩
  | idx, d :: rest =>
    match generate_user_story (responses idx) with
    | none => ⟨none, 1, 0, [], WEnd.failed⟩
    | some story =>
      match d with
      | WDecision.accept =>
        ⟨some story, 1, 1,
         [(joinPath outputDir (acceptFilename inputFilename), story)],
         WEnd.accepted⟩
      | WDecision.regenerate =>
        let r := user_story_workflow responses outputDir inputFilename (idx + 1) rest
        ⟨r.final, r.genCalls + 1, r.reviews + 1, r.saves, r.ending⟩
      | WDecision.edit content =>
        if pyStrip content = "" then
          let r := user_story_workflow responses outputDir inputFilename (idx + 1) rest
          ⟨r.final, r.genCalls + 1, r.reviews + 1, r.saves, r.ending⟩
        else
          ⟨some content, 1, 1,
           [(joinPath outputDir "generated_user_story.txt", content)],
           WEnd.editedAccepted⟩

/-! ## Rate-limiter lemmas -/

/-- Purging is a no-op when every retained timestamp is younger than 60s. -/
lemma filter_window_eq_self (w : List ℚ) (now : ℚ) (h : ∀ s ∈ w, now - s < 60) :
    w.filter (fun req => decide (now - req < 60)) = w :=
  List.filter_eq_self.mpr fun a ha => by simpa using h a ha

/-- Purging empties the window when every retained timestamp is at least
60s old. -/
lemma filter_window_eq_nil (w : List ℚ) (now : ℚ) (h : ∀ s ∈ w, 60 ≤ now - s) :
    w.filter (fun req => decide (now - req < 60)) = [] := by
  rw [List.filter_eq_nil_iff]
  intro a ha
  simpa using not_lt.mpr (h a ha)

/-- Counting bound for the memory backend: starting from a window whose
timestamps lie in a 60-second interval, a run of calls whose times lie in
the same interval returns at most max quota w.length minus w.length
allowances. -/
lemma memRun_count_bound (quota : ℕ) (lo : ℚ) (times : List ℚ) :
    ∀ w : List ℚ, (∀ t ∈ times, lo ≤ t ∧ t < lo + 60) →
    (∀ s ∈ w, lo ≤ s ∧ s < lo + 60) →
    ((memRun quota w times).1.count true) + w.length ≤ max quota w.length := by
  induction times with
  | nil =>
    intro w _ _
    simp [memRun]
  | cons t ts ih =>
    intro w ht hw
    have htmem := ht t (by simp)
    have hts : ∀ x ∈ ts, lo ≤ x ∧ x < lo + 60 := fun x hx => ht x (by simp [hx])
    have hpurge : w.filter (fun req => decide (t - req < 60)) = w :=
      filter_window_eq_self w t (fun s hs => by
        have := hw s hs
        linarith [this.1, htmem.2])
    have hstep : memStep quota w t =
        if w.length < quota then (true, w ++ [t]) else (false, w) := by
      by_cases hlen : w.length < quota <;>
        simp [memStep, hpurge, hlen]
    by_cases hlen : w.length < quota
    · have hstep1 : memStep quota w t = (true, w ++ [t]) := by
        rw [hstep, if_pos hlen]
      have hrun : (memRun quota w (t :: ts)).1
          = true :: (memRun quota (w ++ [t]) ts).1 := by
        simp [memRun, hstep1]
      have hw1 : ∀ s ∈ w ++ [t], lo ≤ s ∧ s < lo + 60 := by
        intro s hs
        rcases List.mem_append.mp hs with h1 | h2
        · exact hw s h1
        · simp only [List.mem_singleton] at h2
          exact h2 ▸ htmem
      have hrec := ih (w ++ [t]) hts hw1
      simp only [List.length_append, List.length_cons, List.length_nil] at hrec
      have h1 : max quota (w.length + 1) = quota := max_eq_left (by omega)
      rw [h1] at hrec
      have h2 : quota ≤ max quota w.length := le_max_left _ _
      rw [hrun, List.count_cons_self]
      omega
    · have hstep1 : memStep quota w t = (false, w) := by
        rw [hstep, if_neg hlen]
      have hrun : (memRun quota w (t :: ts)).1
          = false :: (memRun quota w ts).1 := by
        simp [memRun, hstep1]
      have hrec := ih w hts hw
      rw [hrun, List.count_cons_of_ne (by simp)]
      omega

/-- Memory step when every earlier timestamp has aged out: the purge
empties the window, and the call is admitted exactly when the quota is
positive. -/
lemma memStep_reset (quota : ℕ) (w : List ℚ) (now : ℚ)
    (h : ∀ s ∈ w, 60 ≤ now - s) :
    (memStep quota w now).2 = if 0 < quota then [now] else [] := by
  have hnil := filter_window_eq_nil w now h
  by_cases hq : 0 < quota
  · simp [memStep, hnil, hq]
  · simp [memStep, hnil, hq, Nat.pos_iff_ne_zero]

/-- Claim C6, first part, as stated: within a single 60-second window the
memory backend returns true at most quota times (run started on a fresh
key, i.e. an empty window). -/
lemma memRun_quota_bound (quota : ℕ) (lo : ℚ) (times : List ℚ)
    (h : ∀ t ∈ times, lo ≤ t ∧ t < lo + 60) :
    ((memRun quota [] times).1.count true) ≤ quota := by
  have := memRun_count_bound quota lo times [] h (by simp)
  simpa using this

/-- C6 counterexample: calls at 0 and 59 lie in a single 60-second window;
the later call at 60 is at least 60 seconds after the first call, yet its
retained window still contains the earlier timestamp 59 — the window has
not fully reset, refuting the second part of the claim as stated. -/
theorem c6_counterexample :
    (∀ t ∈ [(0 : ℚ), 59], 0 ≤ t ∧ t < 0 + 60) ∧
    (60 : ℚ) - 0 ≥ 60 ∧
    (memStep 2 (memRun 2 [] [(0 : ℚ), 59]).2 60).2 = [(59 : ℚ), 60] ∧
    (59 : ℚ) ∈ (memStep 2 (memRun 2 [] [(0 : ℚ), 59]).2 60).2 := by
  have hwin : (memStep 2 (memRun 2 [] [(0 : ℚ), 59]).2 60).2 = [(59 : ℚ), 60] := by
    norm_num [memRun, memStep, List.filter]
  refine ⟨?_, by norm_num, hwin, by rw [hwin]; norm_num⟩
  intro t htmem
  simp only [List.mem_cons, List.not_mem_nil, or_false] at htmem
  rcases htmem with h | h <;> (subst h; norm_num)

/-- Claim C6, amended.  First part as stated: for any sequence of
is_allowed calls on a fresh key whose times lie within a single
60-second window, at most quota calls return true.  Second part amended:
the window fully resets for a call made at least 60 seconds after EVERY
earlier retained timestamp (not merely after the first call): the purge
then retains none of the earlier timestamps. -/
theorem c6_amended :
    (∀ (quota : ℕ) (lo : ℚ) (times : List ℚ),
      (∀ t ∈ times, lo ≤ t ∧ t < lo + 60) →
      ((memRun quota [] times).1.count true) ≤ quota) ∧
    (∀ (quota : ℕ) (w : List ℚ) (now : ℚ),
      (∀ s ∈ w, 60 ≤ now - s) →
      (memStep quota w now).2 = if 0 < quota then [now] else []) :=
  ⟨fun quota lo times h => memRun_quota_bound quota lo times h,
   fun quota w now h => memStep_reset quota w now h⟩

/-- Witness for c6_amended at quota 1, a single call at time 0, and a
stale window [-100] purged by a call at time 0. -/
theorem c6_amended_witness :
    ((memRun 1 [] [(0 : ℚ)]).1.count true ≤ 1) ∧
    (memStep 1 [(-100 : ℚ)] 0).2 = [(0 : ℚ)] := by
  constructor
  · exact c6_amended.1 1 0 [0] (by norm_num)
  · have h := c6_amended.2 1 [-100] 0 (by norm_num)
    simpa using h

/-! ## C3: memory vs. redis backend -/

/-- C3 counterexample: with quota 1 and calls at times 0, 30 and 61 on a
fresh key, the memory backend answers [allow, deny, allow] while the
redis backend answers [allow, deny, deny]; moreover a single denied redis
call (time 30 against window [0]) leaves its own timestamp in the
retained window, which the claim says must be unchanged on denial. -/
theorem c3_counterexample :
    (memRun 1 [] [(0 : ℚ), 30, 61]).1 = [true, false, true] ∧
    (redisRun 1 [] [(0 : ℚ), 30, 61]).1 = [true, false, false] ∧
    (redisStep 1 [(0 : ℚ)] 30).1 = false ∧
    (redisStep 1 [(0 : ℚ)] 30).2 = [0, 30] := by
  refine ⟨?_, ?_, ?_, ?_⟩ <;>
    norm_num [memRun, memStep, redisRun, redisStep, List.filter]

/-- C3 amended: on a single call from the same retained window of
nonnegative timestamps not containing the current time, the redis variant
reaches the same allow/deny decision as the memory variant, but its
retained window always keeps the current timestamp — in particular a
denied call appends it, so the two variants do not stay in step over
sequences of calls. -/
theorem c3_amended (quota : ℕ) (w : List ℚ) (now : ℚ)
    (hpos : ∀ s ∈ w, 0 ≤ s) (hfresh : now ∉ w) :
    (redisStep quota w now).1 = (memStep quota w now).1 ∧
    (redisStep quota w now).2 =
      (memStep quota w now).2 ++
        (if (memStep quota w now).1 then [] else [now]) := by
  have hadd : (if now ∈ w then w else w ++ [now]) = w ++ [now] := if_neg hfresh
  have hfeq : w.filter (fun req => !(decide (0 ≤ req) && decide (req ≤ now - 60)))
      = w.filter (fun req => decide (now - req < 60)) := by
    apply List.filter_congr
    intro s hs
    have h0 := hpos s hs
    by_cases hcase : s ≤ now - 60
    · have hnot : ¬ (now - s < 60) := by linarith
      simp [h0, hcase, hnot]
    · have hlt : now - s < 60 := by linarith
      simp [h0, hcase, hlt]
  have hkeep : (!(decide (0 ≤ now) && decide (now ≤ now - 60))) = true := by
    have hno : ¬ (now ≤ now - 60) := by linarith
    simp [hno]
  have htrim :
      (w ++ [now]).filter (fun req => !(decide (0 ≤ req) && decide (req ≤ now - 60)))
        = w.filter (fun req => decide (now - req < 60)) ++ [now] := by
    rw [List.filter_append, hfeq]
    simp only [List.filter_cons, List.filter_nil, hkeep, if_true]
  have hrs : redisStep quota w now =
      if (w.filter (fun req => decide (now - req < 60)) ++ [now]).length ≤ quota
      then (true, w.filter (fun req => decide (now - req < 60)) ++ [now])
      else (false, w.filter (fun req => decide (now - req < 60)) ++ [now]) := by
    simp only [redisStep]
    rw [hadd, htrim]
  have hms : memStep quota w now =
      if (w.filter (fun req => decide (now - req < 60))).length < quota
      then (true, w.filter (fun req => decide (now - req < 60)) ++ [now])
      else (false, w.filter (fun req => decide (now - req < 60))) := by
    simp only [memStep]
  have hlen : (w.filter (fun req => decide (now - req < 60)) ++ [now]).length
      = (w.filter (fun req => decide (now - req < 60))).length + 1 := by
    simp
  by_cases hq : (w.filter (fun req => decide (now - req < 60))).length < quota
  · have hle : (w.filter (fun req => decide (now - req < 60)) ++ [now]).length ≤ quota := by
      omega
    rw [hrs, hms, if_pos hq, if_pos hle]
    simp
  · have hgt : ¬ (w.filter (fun req => decide (now - req < 60)) ++ [now]).length ≤ quota := by
      omega
    rw [hrs, hms, if_neg hq, if_neg hgt]
    simp

/-- Witness for c3_amended: quota 1, window [0], call at time 30 — both
variants deny, and the redis window keeps the denied timestamp. -/
theorem c3_amended_witness :
    (redisStep 1 [(0 : ℚ)] 30).1 = (memStep 1 [(0 : ℚ)] 30).1 ∧
    (redisStep 1 [(0 : ℚ)] 30).2 =
      (memStep 1 [(0 : ℚ)] 30).2 ++
        (if (memStep 1 [(0 : ℚ)] 30).1 then [] else [(30 : ℚ)]) := by
  have h := c3_amended 1 [(0 : ℚ)] 30 (by norm_num) (by norm_num)
  exact h

/-! ## C5: retry decorator -/

/-- Retry loop, success case: if the attempts starting at index i fail k
times and then succeed with v, and more than k attempts of fuel remain,
the loop returns v after exactly k + 1 invocations. -/
lemma retryFrom_ok (op : ℕ → Except E V) (d : ℚ) (v : V) :
    ∀ (k n i : ℕ) (last : Option E), k < n →
    (∀ j, j < k → ∃ e, op (i + j) = Except.error e) →
    op (i + k) = Except.ok v →
    (retryFrom op d i n last).result = Except.ok v ∧
    (retryFrom op d i n last).calls = k + 1 := by
  intro k
  induction k with
  | zero =>
    intro n i last hk hfail hok
    obtain ⟨m, rfl⟩ : ∃ m, n = m + 1 := ⟨n - 1, by omega⟩
    rw [Nat.add_zero] at hok
    simp [retryFrom, hok]
  | succ k ih =>
    intro n i last hk hfail hok
    obtain ⟨m, rfl⟩ : ∃ m, n = m + 1 := ⟨n - 1, by omega⟩
    obtain ⟨e, he⟩ := hfail 0 (by omega)
    rw [Nat.add_zero] at he
    have hfail1 : ∀ j, j < k → ∃ e0, op (i + 1 + j) = Except.error e0 := by
      intro j hj
      obtain ⟨e0, he0⟩ := hfail (j + 1) (by omega)
      exact ⟨e0, by rw [show i + 1 + j = i + (j + 1) by omega]; exact he0⟩
    have hok1 : op (i + 1 + k) = Except.ok v := by
      rw [show i + 1 + k = i + (k + 1) by omega]; exact hok
    have hrec := ih m (i + 1) (some e) (by omega) hfail1 hok1
    simp only [retryFrom, he]
    exact ⟨hrec.1, by omega⟩

/-- Retry loop, exhaustion case: if every attempt starting at index i
fails while n > 0 attempts of fuel remain, and the last attempted index
raises e, the loop raises e after exactly n invocations. -/
lemma retryFrom_err (op : ℕ → Except E V) (d : ℚ) :
    ∀ (n i : ℕ) (last : Option E) (e : E), 0 < n →
    (∀ j, j < n → ∃ e0, op (i + j) = Except.error e0) →
    op (i + (n - 1)) = Except.error e →
    (retryFrom op d i n last).result = Except.error (some e) ∧
    (retryFrom op d i n last).calls = n := by
  intro n
  induction n with
  | zero => intro i last e h; omega
  | succ m ih =>
    intro i last e _ hfail hlaste
    obtain ⟨e0, he0⟩ := hfail 0 (by omega)
    rw [Nat.add_zero] at he0
    rcases Nat.eq_zero_or_pos m with hm | hm
    · subst hm
      simp only [Nat.add_sub_cancel, Nat.add_zero] at hlaste
      simp [retryFrom, hlaste]
    · have hfail1 : ∀ j, j < m → ∃ e1, op (i + 1 + j) = Except.error e1 := by
        intro j hj
        obtain ⟨e1, he1⟩ := hfail (j + 1) (by omega)
        exact ⟨e1, by rw [show i + 1 + j = i + (j + 1) by omega]; exact he1⟩
      have hlast1 : op (i + 1 + (m - 1)) = Except.error e := by
        rw [show i + 1 + (m - 1) = i + (m + 1 - 1) by omega]; exact hlaste
      have hrec := ih (i + 1) (some e0) e hm hfail1 hlast1
      simp only [retryFrom, he0]
      exact ⟨hrec.1, by omega⟩

/-- Claim C5: with max_retries = N ≥ 1 and base delay d, an operation
that fails its first k < N invocations and then succeeds makes the
decorated call return the success value after exactly k + 1 invocations;
an operation that fails every attempt makes the decorated call raise
after exactly N invocations, and the exception that propagates is the one
raised by the final (N-th) attempt. -/
theorem c5_retry_on_failure (N : ℕ) (d : ℚ) (op : ℕ → Except E V)
    (hN : 1 ≤ N) :
    (∀ (k : ℕ) (v : V), k < N →
      (∀ j, j < k → ∃ e, op j = Except.error e) →
      op k = Except.ok v →
      (retry_on_failure N d op).result = Except.ok v ∧
      (retry_on_failure N d op).calls = k + 1) ∧
    (∀ e : E,
      (∀ j, j < N → ∃ e0, op j = Except.error e0) →
      op (N - 1) = Except.error e →
      (retry_on_failure N d op).result = Except.error (some e) ∧
      (retry_on_failure N d op).calls = N) := by
  constructor
  · intro k v hk hfail hok
    exact retryFrom_ok op d v k N 0 none hk
      (by intro j hj; simpa using hfail j hj) (by simpa using hok)
  · intro e hfail hlaste
    exact retryFrom_err op d N 0 none e (by omega)
      (by intro j hj; simpa using hfail j hj) (by simpa using hlaste)

/-- Operation used by the c5 witness: fails once, then returns 42. -/
def c5WitnessOp : ℕ → Except String ℕ :=
  fun i => if i = 0 then Except.error "transient" else Except.ok 42

/-- Witness for c5_retry_on_failure: max_retries 2, base delay 1, an
operation failing exactly once — the decorated call returns 42 after 2
invocations. -/
theorem c5_retry_on_failure_witness :
    (retry_on_failure 2 1 c5WitnessOp).result = Except.ok 42 ∧
    (retry_on_failure 2 1 c5WitnessOp).calls = 2 := by
  have h := (c5_retry_on_failure 2 1 c5WitnessOp (by omega)).1 1 42 (by omega)
    (by
      intro j hj
      obtain rfl : j = 0 := by omega
      exact ⟨"transient", rfl⟩)
    (by simp [c5WitnessOp])
  exact h

/-! ## C9: metrics aggregation -/

/-- Folding records into an aggregate: running totals.  The truthiness
guard on duration skips zero durations, which leaves the sum unchanged,
so total_duration is the plain sum of durations. -/
lemma aggFold_totals (records : List APICallMetrics) :
    ∀ a : AggregatedMetrics,
    (records.foldl AggregatedMetrics.add_call a).total_calls
        = a.total_calls + records.length ∧
    (records.foldl AggregatedMetrics.add_call a).successful_calls
        + (records.foldl AggregatedMetrics.add_call a).failed_calls
        = a.successful_calls + a.failed_calls + records.length ∧
    (records.foldl AggregatedMetrics.add_call a).total_duration
        = a.total_duration + (records.map APICallMetrics.duration).sum := by
  induction records with
  | nil => intro a; simp
  | cons m rest ih =>
    intro a
    have hstep := ih (a.add_call m)
    have h1 : (a.add_call m).total_calls = a.total_calls + 1 := rfl
    have h2 : (a.add_call m).successful_calls + (a.add_call m).failed_calls
        = a.successful_calls + a.failed_calls + 1 := by
      by_cases hs : m.success <;>
        simp [AggregatedMetrics.add_call, hs] <;> omega
    have h3 : (a.add_call m).total_duration = a.total_duration + m.duration := by
      by_cases hd : m.duration = 0 <;>
        simp [AggregatedMetrics.add_call, hd]
    refine ⟨?_, ?_, ?_⟩
    · rw [List.foldl_cons, hstep.1, h1, List.length_cons]; omega
    · rw [List.foldl_cons, hstep.2.1, h2, List.length_cons]; omega
    · rw [List.foldl_cons, hstep.2.2, h3, List.map_cons, List.sum_cons]; ring

/-- Folding a nonempty record list into an aggregate leaves avg_duration
equal to the final total_duration divided by the final total_calls, since
the last add_call recomputes the average. -/
lemma aggFold_avg (records : List APICallMetrics) :
    ∀ a : AggregatedMetrics, records ≠ [] →
    (records.foldl AggregatedMetrics.add_call a).avg_duration
        = (records.foldl AggregatedMetrics.add_call a).total_duration
          / ((records.foldl AggregatedMetrics.add_call a).total_calls : ℚ) := by
  induction records with
  | nil => intro a h; exact absurd rfl h
  | cons m rest ih =>
    intro a _
    rcases List.eq_nil_or_concat rest with hrest | _
    · subst hrest
      simp only [List.foldl_cons, List.foldl_nil]
      have htot : (a.add_call m).total_calls = a.total_calls + 1 := rfl
      simp [AggregatedMetrics.add_call]
    · rcases List.eq_nil_or_concat rest with h0 | ⟨l, x, hlx⟩
      · subst h0
        simp only [List.foldl_cons, List.foldl_nil]
        simp [AggregatedMetrics.add_call]
      · have hne : rest ≠ [] := by
          subst hlx
          simp
        rw [List.foldl_cons]
        exact ih (a.add_call m) hne

/-- Collector-level bridge: folding records that all carry the same
provider:operation key updates exactly that aggregate by the
AggregatedMetrics fold. -/
lemma collectorFold_key (records : List APICallMetrics) :
    ∀ (s : MetricsCollectorState) (key : String),
    (∀ m ∈ records, m.provider ++ ":" ++ m.operation = key) →
    (records.foldl record_api_call s).current key
        = records.foldl AggregatedMetrics.add_call (s.current key) := by
  induction records with
  | nil => intro s key _; rfl
  | cons m rest ih =>
    intro s key hkeys
    have hm := hkeys m (by simp)
    have hcur : (record_api_call s m).current key = (s.current key).add_call m := by
      simp [record_api_call, hm]
    rw [List.foldl_cons, List.foldl_cons,
      ih (record_api_call s m) key (fun x hx => hkeys x (by simp [hx])), hcur]

/-- Claim C9: after recording n completed records for the key (p, o) into
a fresh collector, total_calls = n, successful_calls + failed_calls = n,
and avg_duration is the sum of the durations divided by n (for n = 0 both
sides are 0: the average is never updated and rational division by zero
is zero). -/
theorem c9_metrics_aggregate (p o : String) (records : List APICallMetrics)
    (hkeys : ∀ m ∈ records, m.provider = p ∧ m.operation = o) :
    ((records.foldl record_api_call MetricsCollectorState.init).current
        (p ++ ":" ++ o)).total_calls = records.length ∧
    ((records.foldl record_api_call MetricsCollectorState.init).current
        (p ++ ":" ++ o)).successful_calls
      + ((records.foldl record_api_call MetricsCollectorState.init).current
        (p ++ ":" ++ o)).failed_calls = records.length ∧
    ((records.foldl record_api_call MetricsCollectorState.init).current
        (p ++ ":" ++ o)).avg_duration
      = (records.map APICallMetrics.duration).sum / (records.length : ℚ) := by
  have hbridge := collectorFold_key records MetricsCollectorState.init
    (p ++ ":" ++ o) (fun m hm => by rw [(hkeys m hm).1, (hkeys m hm).2])
  have hinit : MetricsCollectorState.init.current (p ++ ":" ++ o)
      = AggregatedMetrics.init := rfl
  rw [hbridge, hinit]
  have htotals := aggFold_totals records AggregatedMetrics.init
  have h1 : (records.foldl AggregatedMetrics.add_call AggregatedMetrics.init).total_calls
      = records.length := by
    rw [htotals.1]; simp [AggregatedMetrics.init]
  have h2 : (records.foldl AggregatedMetrics.add_call AggregatedMetrics.init).total_duration
      = (records.map APICallMetrics.duration).sum := by
    rw [htotals.2.2]
    simp [AggregatedMetrics.init]
  refine ⟨h1, ?_, ?_⟩
  · rw [htotals.2.1]; simp [AggregatedMetrics.init]
  · rcases List.eq_nil_or_concat records with hnil | ⟨l, x, hlx⟩
    · subst hnil
      simp [AggregatedMetrics.init]
    · have hne : records ≠ [] := by subst hlx; simp
      rw [aggFold_avg records AggregatedMetrics.init hne, h1, h2]

/-- Records used by the c9 witness: two completed gemini calls, one
successful of duration 2 and one failed of duration 4. -/
def c9WitnessRecords : List APICallMetrics :=
  [⟨"gemini", "generate_response", 2, true, 10, 5, false, false⟩,
   ⟨"gemini", "generate_response", 4, false, 3, 0, false, false⟩]

/-- Witness for c9_metrics_aggregate on two concrete records: 2 total
calls, successes plus failures 2, average duration 3. -/
theorem c9_metrics_aggregate_witness :
    ((c9WitnessRecords.foldl record_api_call MetricsCollectorState.init).current
        ("gemini" ++ ":" ++ "generate_response")).total_calls = 2 ∧
    ((c9WitnessRecords.foldl record_api_call MetricsCollectorState.init).current
        ("gemini" ++ ":" ++ "generate_response")).avg_duration = 3 := by
  have h := c9_metrics_aggregate "gemini" "generate_response" c9WitnessRecords
    (by
      intro m hm
      simp only [c9WitnessRecords, List.mem_cons, List.not_mem_nil, or_false] at hm
      rcases hm with rfl | rfl <;> exact ⟨rfl, rfl⟩)
  refine ⟨h.1, ?_⟩
  rw [h.2.2]
  norm_num [c9WitnessRecords]

/-! ## C8: in-memory cache entry lifecycle -/

/-- Claim C8: after set(k, v, ttl) at time now, a get(k) at any time t
before now + ttl returns v and leaves the store unchanged; a get(k) at
any time t from now + ttl on returns absent, deletes the entry (the key
reads as absent in the resulting store), and so behaves as a miss.  In
particular a get immediately after the set (t = now) returns v whenever
ttl is positive. -/
theorem c8_cache_entry_lifecycle (store : String → Option (α × ℚ))
    (k : String) (v : α) (ttl now t : ℚ) :
    (t < now + ttl →
      (imcGet (imcSet store k v ttl now) k t).1 = some v ∧
      (imcGet (imcSet store k v ttl now) k t).2 = imcSet store k v ttl now) ∧
    (now + ttl ≤ t →
      (imcGet (imcSet store k v ttl now) k t).1 = none ∧
      ((imcGet (imcSet store k v ttl now) k t).2) k = none) := by
  have hk : imcSet store k v ttl now k = some (v, now + ttl) := by
    simp [imcSet]
  constructor
  · intro hfresh
    simp [imcGet, hk, hfresh]
  · intro hexp
    have hnot : ¬ t < now + ttl := not_lt.mpr hexp
    constructor
    · simp [imcGet, hk, hnot]
    · simp [imcGet, hk, hnot]

/-- Witness for c8_cache_entry_lifecycle: value 7 stored at time 0 with
ttl 10 is visible at time 5 and gone (entry deleted) at time 10. -/
theorem c8_cache_entry_lifecycle_witness :
    ((imcGet (imcSet (fun _ => (none : Option (ℕ × ℚ))) "k" 7 10 0) "k" 5).1
        = some 7) ∧
    ((imcGet (imcSet (fun _ => (none : Option (ℕ × ℚ))) "k" 7 10 0) "k" 10).1
        = none) ∧
    ((imcGet (imcSet (fun _ => (none : Option (ℕ × ℚ))) "k" 7 10 0) "k" 10).2 "k"
        = none) := by
  refine ⟨?_, ?_, ?_⟩
  · exact ((c8_cache_entry_lifecycle (fun _ => none) "k" 7 10 0 5).1
      (by norm_num)).1
  · exact ((c8_cache_entry_lifecycle (fun _ => none) "k" 7 10 0 10).2
      (by norm_num)).1
  · exact ((c8_cache_entry_lifecycle (fun _ => none) "k" 7 10 0 10).2
      (by norm_num)).2

/-! ## C7: cached wrapper memoization -/

/-- C7 counterexample: an operation whose result is None is re-invoked on
every call even with caching enabled and within the TTL, because the
wrapper (and the backend) cannot distinguish a stored None from a miss:
two invocations with identical arguments invoke the operation twice, not
at most once. -/
theorem c7_counterexample :
    (cachedCall false 3600 (some 100) "k" (fun _ => (none : Option ℕ))
        (fun _ => none) 0).opCalls = 1 ∧
    (cachedCall false 3600 (some 100) "k" (fun _ => (none : Option ℕ))
        ((cachedCall false 3600 (some 100) "k" (fun _ => (none : Option ℕ))
          (fun _ => none) 0).store) 0).opCalls = 1 := by
  constructor
  · rfl
  · norm_num [cachedCall, imcGet, imcSet, pyOrTtl, Option.join]

/-- Claim C7, amended: with caching enabled, for an operation whose
result is not None, starting from a store with no entry at the key, two
invocations with identical arguments within the effective TTL invoke the
operation exactly once in total: the first invocation computes and
stores the result, the second returns the stored result without invoking
the operation. -/
theorem c7_cached_amended (defaultTtl : ℚ) (ttl : Option ℚ) (key : String)
    (f : Unit → Option V) (store : String → Option (Option V × ℚ))
    (t1 t2 : ℚ) (v : V)
    (hmiss : store key = none) (hv : f () = some v)
    (hfresh : t2 < t1 + pyOrTtl ttl defaultTtl) :
    (cachedCall false defaultTtl ttl key f store t1).opCalls = 1 ∧
    (cachedCall false defaultTtl ttl key f store t1).result = some v ∧
    (cachedCall false defaultTtl ttl key f
        (cachedCall false defaultTtl ttl key f store t1).store t2).opCalls = 0 ∧
    (cachedCall false defaultTtl ttl key f
        (cachedCall false defaultTtl ttl key f store t1).store t2).result
      = some v := by
  have hc1 : cachedCall false defaultTtl ttl key f store t1 =
      ⟨f (), imcSet store key (f ()) (pyOrTtl ttl defaultTtl) t1, 1⟩ := by
    simp [cachedCall, imcGet, hmiss]
  have hstore : (cachedCall false defaultTtl ttl key f store t1).store key
      = some (some v, t1 + pyOrTtl ttl defaultTtl) := by
    rw [hc1]
    simp [imcSet, hv]
  have hc2 : ∀ s1 : String → Option (Option V × ℚ),
      s1 key = some (some v, t1 + pyOrTtl ttl defaultTtl) →
      cachedCall false defaultTtl ttl key f s1 t2 = ⟨some v, s1, 0⟩ := by
    intro s1 hs1
    simp [cachedCall, imcGet, hs1, hfresh]
  have hc2a := hc2 _ hstore
  exact ⟨by rw [hc1], by rw [hc1]; exact hv, by rw [hc2a], by rw [hc2a]⟩

/-- Witness for c7_cached_amended: value 9 computed at time 0 with
default TTL 3600 and no explicit TTL; a second call at time 1 returns 9
without invoking the operation. -/
theorem c7_cached_amended_witness :
    (cachedCall false 3600 none "k" (fun _ => some 9)
        (fun _ => (none : Option (Option ℕ × ℚ))) 0).opCalls = 1 ∧
    (cachedCall false 3600 none "k" (fun _ => some 9)
        ((cachedCall false 3600 none "k" (fun _ => some 9)
          (fun _ => (none : Option (Option ℕ × ℚ))) 0).store) 1).opCalls = 0 ∧
    (cachedCall false 3600 none "k" (fun _ => some 9)
        ((cachedCall false 3600 none "k" (fun _ => some 9)
          (fun _ => (none : Option (Option ℕ × ℚ))) 0).store) 1).result
      = some 9 := by
  have h := c7_cached_amended 3600 none "k" (fun _ => some 9)
    (fun _ => none) 0 1 9 rfl rfl (by norm_num [pyOrTtl])
  exact ⟨h.1, h.2.2.1, h.2.2.2⟩

/-! ## C2: cache hit versus rate limiter in the composite call -/

/-- Cache store used by the C2 theorems: the key for prompt p holds the
value X until time 100. -/
def c2Store : String → Option (String × ℚ) :=
  fun k => if k = mkCacheKey "generate_response" "p" then some ("X", 100) else none

/-- Memory step on an allowed call: the window becomes the purged window
with now appended. -/
lemma memStep_allowed_window (quota : ℕ) (w : List ℚ) (now : ℚ)
    (h : (memStep quota w now).1 = true) :
    (memStep quota w now).2
      = w.filter (fun req => decide (now - req < 60)) ++ [now] := by
  by_cases hlen : (w.filter (fun req => decide (now - req < 60))).length < quota
  · simp [memStep, hlen]
  · exfalso
    simp [memStep, hlen] at h

/-- C2 counterexample: quota 1, an empty window, and a cache entry for the
prompt.  A first attempt at time 0 hits the cache and invokes no provider
call, yet its rate-limit window changes from [] to [0] — the attempt
consumed quota.  A second configuration with the window already full is
denied with the rate-limit error even though the same cache entry would
hit — so a cache-hitting attempt can be denied for a rate-limit reason.
Both refute the claim that a hit leaves the limiter window unchanged and
cannot be denied. -/
theorem c2_counterexample :
    (geminiAttempt 1 false 3600 id (fun _ => Except.ok "FRESH")
        ⟨[], c2Store, 0, 0⟩ "p" 0).1 = Except.ok "X" ∧
    (geminiAttempt 1 false 3600 id (fun _ => Except.ok "FRESH")
        ⟨[], c2Store, 0, 0⟩ "p" 0).2.providerCalls = 0 ∧
    (geminiAttempt 1 false 3600 id (fun _ => Except.ok "FRESH")
        ⟨[], c2Store, 0, 0⟩ "p" 0).2.window = [(0 : ℚ)] ∧
    ([(0 : ℚ)] ≠ ([] : List ℚ)) ∧
    (geminiAttempt 1 false 3600 id (fun _ => Except.ok "FRESH")
        ⟨[(0 : ℚ)], c2Store, 0, 0⟩ "p" 1).1
      = Except.error "Rate limit exceeded for gemini" := by
  refine ⟨?_, ?_, ?_, by simp, ?_⟩ <;>
    norm_num [geminiAttempt, memStep, imcGet, c2Store, mkCacheKey, List.filter]

/-- Claim C2, amended: on a composite generate_response attempt that the
rate limiter admits and whose key hits the cache, the provider is not
invoked and no metrics record is entered, and the attempt returns the
cached value — but the rate-limit check runs BEFORE the cache lookup, so
the attempt consumes quota: the window gains the current timestamp.  An
attempt whose window is already at quota raises the rate-limit error
regardless of the cache (shown by the counterexample). -/
theorem c2_amended (quota : ℕ) (defaultTtl : ℚ) (clean : String → String)
    (provider : String → Except String String) (s : AgentState)
    (prompt : String) (now : ℚ) (v : String)
    (hallow : (memStep quota s.window now).1 = true)
    (hhit : (imcGet s.store (mkCacheKey "generate_response" prompt) now).1
      = some v) :
    (geminiAttempt quota false defaultTtl clean provider s prompt now).1
      = Except.ok v ∧
    (geminiAttempt quota false defaultTtl clean provider s prompt now).2.providerCalls
      = s.providerCalls ∧
    (geminiAttempt quota false defaultTtl clean provider s prompt now).2.metricsRecorded
      = s.metricsRecorded ∧
    (geminiAttempt quota false defaultTtl clean provider s prompt now).2.window
      = s.window.filter (fun req => decide (now - req < 60)) ++ [now] := by
  have hwin := memStep_allowed_window quota s.window now hallow
  refine ⟨?_, ?_, ?_, ?_⟩ <;>
    simp [geminiAttempt, hallow, hhit, hwin]

/-- Witness for c2_amended: quota 1, empty window, prompt p cached as X at
time 0 — the attempt returns X, makes no provider call, records no
metrics, and appends 0 to the window. -/
theorem c2_amended_witness :
    (geminiAttempt 1 false 3600 id (fun _ => Except.ok "FRESH")
        ⟨[], c2Store, 5, 7⟩ "p" 0).1 = Except.ok "X" ∧
    (geminiAttempt 1 false 3600 id (fun _ => Except.ok "FRESH")
        ⟨[], c2Store, 5, 7⟩ "p" 0).2.providerCalls = 7 ∧
    (geminiAttempt 1 false 3600 id (fun _ => Except.ok "FRESH")
        ⟨[], c2Store, 5, 7⟩ "p" 0).2.metricsRecorded = 5 ∧
    (geminiAttempt 1 false 3600 id (fun _ => Except.ok "FRESH")
        ⟨[], c2Store, 5, 7⟩ "p" 0).2.window = [(0 : ℚ)] := by
  have h := c2_amended 1 3600 id (fun _ => Except.ok "FRESH")
    ⟨[], c2Store, 5, 7⟩ "p" 0 "X"
    (by norm_num [memStep, List.filter])
    (by norm_num [imcGet, c2Store, mkCacheKey])
  refine ⟨h.1, h.2.1, h.2.2.1, ?_⟩
  rw [h.2.2.2]
  norm_num [List.filter]

/-! ## C1: empty edit regenerates instead of reviewing the prior artifact -/

/-- Provider responses used by the C1 evaluation: three distinct valid
stories A, B, C for the first, second and third generation calls. -/
def c1Responses : ℕ → Except String String :=
  fun i => Except.ok (if i = 0 then "A" else if i = 1 then "B" else "C")

/-- Evaluation of the workflow at the failing input for claim C1: for the
operator decision sequence [reject-regenerate, reject-edit with an empty
edit, accept], the code performs 3 generation calls (the empty-edit
branch prints that it keeps the original but its continue statement jumps
back to generation) and persists the THIRD generated artifact, not 2
calls persisting the second as the claim states. -/
theorem c1_empty_edit_regenerates :
    user_story_workflow c1Responses "output" "" 0
        [WDecision.regenerate, WDecision.edit "", WDecision.accept]
      = ⟨some "C", 3, 3, [("output/generated_user_story.txt", "C")],
         WEnd.accepted⟩ ∧
    (user_story_workflow c1Responses "output" "" 0
        [WDecision.regenerate, WDecision.edit "", WDecision.accept]).genCalls
      ≠ 2 ∧
    (user_story_workflow c1Responses "output" "" 0
        [WDecision.regenerate, WDecision.edit "", WDecision.accept]).final
      ≠ some "B" := by
  refine ⟨?_, ?_, ?_⟩ <;> decide

/-! ## C4: empty provider response aborts the phase -/

/-- C4 counterexample: when the provider returns the empty string the
workflow ends in the failed state with no artifact and ZERO answered
review prompts — the operator is never re-prompted, refuting the claim
that the phase continues with a re-prompt. -/
theorem c4_counterexample :
    validate_response "" = false ∧
    user_story_workflow (fun _ => Except.ok "") "output" "" 0 [WDecision.accept]
      = ⟨none, 1, 0, [], WEnd.failed⟩ := by
  exact ⟨rfl, rfl⟩

/-- Claim C4, amended: whenever the provider response for the current
generation call is the empty string, validate_response is false, and the
workflow never reaches acceptance via that generation: it returns
immediately with no artifact, no persisted file, and no review prompt —
it aborts rather than re-prompting the operator. -/
theorem c4_empty_response_aborts (responses : ℕ → Except String String)
    (outDir inFile : String) (idx : ℕ) (ds : List WDecision)
    (h : responses idx = Except.ok "") :
    validate_response "" = false ∧
    user_story_workflow responses outDir inFile idx ds
      = ⟨none, 1, 0, [], WEnd.failed⟩ := by
  have hgen : generate_user_story (responses idx) = none := by
    rw [h]
    rfl
  refine ⟨rfl, ?_⟩
  cases ds with
  | nil => simp [user_story_workflow, hgen]
  | cons d rest => cases d <;> simp [user_story_workflow, hgen]

/-- Witness for c4_empty_response_aborts at a concrete run whose provider
always returns the empty string. -/
theorem c4_empty_response_aborts_witness :
    validate_response "" = false ∧
    user_story_workflow (fun _ => Except.ok "") "out" "req" 0
        [WDecision.regenerate, WDecision.accept]
      = ⟨none, 1, 0, [], WEnd.failed⟩ :=
  c4_empty_response_aborts (fun _ => Except.ok "") "out" "req" 0
    [WDecision.regenerate, WDecision.accept] rfl

/-! ## C10: the two acceptance paths persist to different filenames -/

/-- Claim C10: a run that ends by the operator accepting a non-empty
edited modification persists exactly one final artifact, at
outputDir/generated_user_story.txt, regardless of the input filename; a
run that ends by direct acceptance of a generated story with a non-empty
input filename persists exactly one final artifact, at
outputDir/{inputFilename}_user_story.txt. -/
theorem c10_acceptance_filenames (responses : ℕ → Except String String)
    (outDir inFile : String) :
    ∀ (ds : List WDecision) (idx : ℕ),
    ((user_story_workflow responses outDir inFile idx ds).ending
        = WEnd.editedAccepted →
      ∃ c, (user_story_workflow responses outDir inFile idx ds).final = some c ∧
        (user_story_workflow responses outDir inFile idx ds).saves
          = [(joinPath outDir "generated_user_story.txt", c)]) ∧
    ((user_story_workflow responses outDir inFile idx ds).ending
        = WEnd.accepted → inFile ≠ "" →
      ∃ c, (user_story_workflow responses outDir inFile idx ds).final = some c ∧
        (user_story_workflow responses outDir inFile idx ds).saves
          = [(joinPath outDir (inFile ++ "_user_story.txt"), c)]) := by
  intro ds
  induction ds with
  | nil =>
    intro idx
    rcases hgen : generate_user_story (responses idx) with _ | story <;>
      simp [user_story_workflow, hgen]
  | cons d rest ih =>
    intro idx
    rcases hgen : generate_user_story (responses idx) with _ | story
    · simp [user_story_workflow, hgen]
    · cases d with
      | accept =>
        constructor
        · intro habs
          simp [user_story_workflow, hgen] at habs
        · intro _ hin
          refine ⟨story, ?_, ?_⟩ <;>
            simp [user_story_workflow, hgen, acceptFilename, hin]
      | regenerate =>
        have hrw : user_story_workflow responses outDir inFile idx
            (WDecision.regenerate :: rest)
            = ⟨(user_story_workflow responses outDir inFile (idx + 1) rest).final,
               (user_story_workflow responses outDir inFile (idx + 1) rest).genCalls + 1,
               (user_story_workflow responses outDir inFile (idx + 1) rest).reviews + 1,
               (user_story_workflow responses outDir inFile (idx + 1) rest).saves,
               (user_story_workflow responses outDir inFile (idx + 1) rest).ending⟩ := by
          simp [user_story_workflow, hgen]
        rw [hrw]
        exact ih (idx + 1)
      | edit content =>
        by_cases htrim : pyStrip content = ""
        · have hrw : user_story_workflow responses outDir inFile idx
              (WDecision.edit content :: rest)
              = ⟨(user_story_workflow responses outDir inFile (idx + 1) rest).final,
                 (user_story_workflow responses outDir inFile (idx + 1) rest).genCalls + 1,
                 (user_story_workflow responses outDir inFile (idx + 1) rest).reviews + 1,
                 (user_story_workflow responses outDir inFile (idx + 1) rest).saves,
                 (user_story_workflow responses outDir inFile (idx + 1) rest).ending⟩ := by
            simp [user_story_workflow, hgen, htrim]
          rw [hrw]
          exact ih (idx + 1)
        · constructor
          · intro _
            refine ⟨content, ?_, ?_⟩ <;>
              simp [user_story_workflow, hgen, htrim]
          · intro habs
            simp [user_story_workflow, hgen, htrim] at habs

/-- Witness for c10_acceptance_filenames: an edited acceptance with a
non-empty input filename persists to generated_user_story.txt, and a
direct acceptance with input filename req persists to
req_user_story.txt. -/
theorem c10_acceptance_filenames_witness :
    (∃ c, (user_story_workflow (fun _ => Except.ok "S") "output" "req" 0
        [WDecision.edit "edited"]).final = some c ∧
      (user_story_workflow (fun _ => Except.ok "S") "output" "req" 0
        [WDecision.edit "edited"]).saves
        = [(joinPath "output" "generated_user_story.txt", c)]) ∧
    (∃ c, (user_story_workflow (fun _ => Except.ok "S") "output" "req" 0
        [WDecision.accept]).final = some c ∧
      (user_story_workflow (fun _ => Except.ok "S") "output" "req" 0
        [WDecision.accept]).saves
        = [(joinPath "output" ("req" ++ "_user_story.txt"), c)]) := by
  constructor
  · exact ((c10_acceptance_filenames (fun _ => Except.ok "S") "output" "req"
      [WDecision.edit "edited"] 0).1 (by decide))
  · exact ((c10_acceptance_filenames (fun _ => Except.ok "S") "output" "req"
      [WDecision.accept] 0).2 (by decide) (by decide))

end QaGen
